import Mathlib

/-!
# Domain converter: a shallow embedding of `main.go`

The Go plugin resolves a request's host name through a remote lookup service,
checks the client address against the returned allow-list, writes the resolved
identity into a request header and caches lookup results with a TTL.

Modelling conventions

* A Go `string` is a `List Char` (a sequence of code points; the strings are taken to be
  valid UTF-8, on which splitting at an ASCII separator by bytes and by code points agree).
* Go `int` and `int64` are `Int`; `int` is 64 bits wide, and the one place where the code
  multiplies machine integers (`time.Duration(n) * time.Second`) wraps modulo `2^64`.
* A `time.Time` is an `Int`, a count of nanoseconds on one time line; `Time.Add` is exact.
* `map[string]T` is a function from keys to `Option T`.
* The remote service is a function from the requested URL to the outcome of the GET.
* One call of `ServeHTTP` yields its single terminal action, the cache it leaves behind and
  the list of host names it passed to `lookupDomain`.
-/

namespace DomainConverter

/-- A Go string. -/
abbrev Str := List Char

/-! ## Library functions used by the source (`strings`, `strconv`, `net/textproto`, `time`) -/

/-- The predicate `unicode.IsSpace`: the Latin-1 cases and the `White_Space` range table. -/
def isSpace (c : Char) : Bool :=
  let n := c.toNat
  (9 ≤ n && n ≤ 13) || n == 32 || n == 0x85 || n == 0xA0 || n == 0x1680 ||
    (0x2000 ≤ n && n ≤ 0x200a) || n == 0x2028 || n == 0x2029 || n == 0x202f ||
    n == 0x205f || n == 0x3000

/-- The function `strings.TrimSpace`: drops all leading and all trailing white space. -/
def TrimSpace (s : Str) : Str :=
  ((s.dropWhile isSpace).reverse.dropWhile isSpace).reverse

/-- The function `strings.Split(s, sep)` for a separator of one character: the pieces of `s`
between the occurrences of `sep`; there is always at least one piece. -/
def Split : Str → Char → List Str
  | [], _ => [[]]
  | c :: cs, sep =>
    if c = sep then [] :: Split cs sep
    else
      match Split cs sep with
      | [] => [[c]]
      | p :: ps => (c :: p) :: ps

/-- The function `strings.LastIndex(s, sep)` for a separator of one character: the index of
the last occurrence, or `-1`. -/
def LastIndex : Str → Char → Int
  | [], _ => -1
  | x :: xs, c =>
    let r := LastIndex xs c
    if r ≠ -1 then r + 1 else if x = c then 0 else -1

/-- The function `strings.HasPrefix`. -/
def HasPrefix (s pre : Str) : Bool := pre.isPrefixOf s

/-- Value of a decimal digit, as `strconv` reads it. -/
def digitVal (c : Char) : Option Nat :=
  if 48 ≤ c.toNat ∧ c.toNat ≤ 57 then some (c.toNat - 48) else none

/-- Reads a run of decimal digits, most significant first, onto the accumulator. -/
def parseDigits : Str → Nat → Option Nat
  | [], acc => some acc
  | c :: cs, acc =>
    match digitVal c with
    | none => none
    | some d => parseDigits cs (acc * 10 + d)

/-- The function `strconv.Atoi` for a 64-bit `int`: an optional sign, then one or more
decimal digits, and the value has to fit; `none` stands for a non-nil error. -/
def Atoi (s : Str) : Option Int :=
  match s with
  | [] => none
  | c :: rest =>
    let neg := decide (c = '-')
    let ds := if c = '-' ∨ c = '+' then rest else s
    if ds = [] then none
    else
      match parseDigits ds 0 with
      | none => none
      | some n =>
        let v : Int := if neg then -(n : Int) else (n : Int)
        if -(2 : Int) ^ 63 ≤ v ∧ v < (2 : Int) ^ 63 then some v else none

/-- Two's-complement wrap of an integer into the `int64` range. -/
def wrap64 (x : Int) : Int := (x + 2 ^ 63) % 2 ^ 64 - 2 ^ 63

/-- The constant `time.Second`, in nanoseconds. -/
def Second : Int := 1000000000

/-- The expression `time.Duration(n) * time.Second`: an `int64` product. -/
def secondsDuration (n : Int) : Int := wrap64 (n * Second)

/-- The table `validHeaderFieldByte` of `net/textproto`: the token characters of RFC 7230. -/
def validHeaderFieldByte (c : Char) : Bool :=
  let n := c.toNat
  (48 ≤ n && n ≤ 57) || (65 ≤ n && n ≤ 90) || (97 ≤ n && n ≤ 122) ||
    [33, 35, 36, 37, 38, 39, 42, 43, 45, 46, 94, 95, 96, 124, 126].contains n

/-- The canonicalising loop of `net/textproto`: upper case for the first letter and for a
letter after a dash, lower case for the other letters. -/
def canonicalLoop : Bool → Str → Str
  | _, [] => []
  | upper, c :: cs =>
    let n := c.toNat
    let c1 :=
      if upper && (97 ≤ n && n ≤ 122) then Char.ofNat (n - 32)
      else if !upper && (65 ≤ n && n ≤ 90) then Char.ofNat (n + 32)
      else c
    c1 :: canonicalLoop (c1 == '-') cs

/-- The function `textproto.CanonicalMIMEHeaderKey`: a key holding a character that is not a
token character is returned unchanged. -/
def CanonicalMIMEHeaderKey (s : Str) : Str :=
  if s.all validHeaderFieldByte then canonicalLoop true s else s

/-- The type `http.Header`, a `map[string][]string`; a key that is absent has no values. -/
abbrev Header := Str → List Str

/-- The method `Header.Get`: the first value stored under the canonical form of the key, or
the empty string. -/
def Header.Get (h : Header) (key : Str) : Str :=
  match h (CanonicalMIMEHeaderKey key) with
  | [] => []
  | v :: _ => v

/-- The method `Header.Set`: the canonical form of the key gets the single value. -/
def Header.Set (h : Header) (key value : Str) : Header :=
  fun k => if k = CanonicalMIMEHeaderKey key then [value] else h k

/-! ## Data model -/

/-- The fields of `http.Request` that the plugin reads or writes. -/
structure Request where
  Host : Str
  Header : Header
  RemoteAddr : Str

/-- The statement `req.Header.Set(key, value)`: the request with that header written. -/
def Request.setHeader (req : Request) (key value : Str) : Request :=
  { req with Header := Header.Set req.Header key value }

/-- Config: the plugin configuration. -/
structure Config where
  LookupServiceURL : Str
  DefaultTTL : Int
  DomainIDHeader : Str
  URLPath : Str

/-- CreateConfig: the default plugin configuration. -/
def CreateConfig : Config :=
  { LookupServiceURL := "http://domain".data
    DefaultTTL := 60
    DomainIDHeader := "x-domain-id".data
    URLPath := [] }

/-- CacheEntry: a cached domain lookup result. -/
structure CacheEntry where
  Value : Str
  ExpiresAt : Int
  IsRedirect : Bool
deriving DecidableEq

/-- The field `cache` of the plugin, a `map[string]*CacheEntry`. -/
abbrev Cache := Str → Option CacheEntry

/-- DomainLookupFilter: the plugin; `name`, `next` and the mutex carry no data of the model. -/
structure DomainLookupFilter where
  config : Config
  cache : Cache

/-- New: constructs the plugin; the error is the message of the Go error. -/
def New (config : Config) : Except Str DomainLookupFilter :=
  if config.LookupServiceURL = [] then
    .error "lookupServiceUrl is required".data
  else
    let config := if config.DefaultTTL ≤ 0 then { config with DefaultTTL := 60 } else config
    .ok { config := config, cache := fun _ => none }

/-! ## Cache management methods -/

/-- The method `getCacheEntry`. -/
def getCacheEntry (cache : Cache) (key : Str) : Option CacheEntry := cache key

/-- The method `setCacheEntry`. -/
def setCacheEntry (cache : Cache) (key value : Str) (expiresAt : Int) (isRedirect : Bool) :
    Cache :=
  fun k =>
    if k = key then some { Value := value, ExpiresAt := expiresAt, IsRedirect := isRedirect }
    else cache k

/-- The method `removeCacheEntry`. -/
def removeCacheEntry (cache : Cache) (key : Str) : Cache :=
  fun k => if k = key then none else cache k

/-! ## Helpers of the request handler -/

/-- The method `getClientIP`: the client address from `X-Forwarded-For` or `RemoteAddr`. -/
def getClientIP (req : Request) : Str :=
  let xForwardedFor := Header.Get req.Header "X-Forwarded-For".data
  let fallback : Str :=
    let remoteAddr := req.RemoteAddr
    let colonIndex := LastIndex remoteAddr ':'
    if colonIndex ≠ -1 then remoteAddr.take colonIndex.toNat else remoteAddr
  if xForwardedFor ≠ [] then
    match Split xForwardedFor ',' with
    | ip0 :: _ => TrimSpace ip0
    | [] => fallback
  else fallback

/-- The method `parseDomainInfo`: parses the format `uuid|ip1,ip2,ip3`. -/
def parseDomainInfo (domainInfo : Str) : Str × List Str :=
  match Split domainInfo '|' with
  | uuid :: allowedIPsString :: _ =>
    if allowedIPsString = [] then (uuid, [])
    else (uuid, (Split allowedIPsString ',').map TrimSpace)
  | _ => ([], [])

/-- The method `isIPAllowed`: is the client address in the allow-list. -/
def isIPAllowed (clientIP : Str) (allowedIPs : List Str) : Bool :=
  if allowedIPs.length = 0 then true
  else allowedIPs.any fun allowedIP => decide (TrimSpace allowedIP = clientIP)

/-- The outcome of `client.Get` followed by `io.ReadAll`: a transport failure, or a response
with its status code, its `Cache-Control` header and its body (`none` when reading fails). -/
inductive GetResult where
  | transportError
  | response (statusCode : Int) (cacheControl : Str) (body : Option Str)

/-- The remote lookup service, as seen through `client.Get`. -/
abbrev Network := Str → GetResult

/-- The four results of `lookupDomain`; `err` stands for `err != nil`. -/
structure LookupResult where
  domainInfo : Str
  statusCode : Int
  cacheControl : Str
  err : Bool
deriving DecidableEq

/-- The method `lookupDomain`: one GET to the lookup service. -/
def lookupDomain (config : Config) (net : Network) (hostname : Str) : LookupResult :=
  let lookupURL := config.LookupServiceURL ++ config.URLPath ++ "?domain=".data ++ hostname
  match net lookupURL with
  | .transportError => { domainInfo := [], statusCode := 0, cacheControl := [], err := true }
  | .response statusCode _ none =>
    { domainInfo := [], statusCode := statusCode, cacheControl := [], err := true }
  | .response statusCode cacheControl (some body) =>
    { domainInfo := body, statusCode := statusCode, cacheControl := cacheControl, err := false }

/-- The method `parseMaxAge`: the max-age value of a Cache-Control header. -/
def parseMaxAge (config : Config) (cacheControl : Str) : Int :=
  if cacheControl = [] then config.DefaultTTL
  else
    let rec scan : List Str → Int
      | [] => config.DefaultTTL
      | directive :: rest =>
        let directive := TrimSpace directive
        if HasPrefix directive "max-age=".data then
          match Atoi (directive.drop 8) with
          | some maxAge => maxAge
          | none => scan rest
        else scan rest
    scan (Split cacheControl ',')

/-! ## The request handler -/

/-- The terminal action of one request. -/
inductive Action where
  /-- The call `a.next.ServeHTTP(rw, req)` with the request as it is at that point. -/
  | next (req : Request)
  /-- The call `http.Error(rw, msg, code)`. -/
  | error (msg : Str) (code : Nat)
  /-- The call `http.Redirect(rw, req, url, code)`. -/
  | redirect (url : Str) (code : Nat)

/-- What one call of `ServeHTTP` does: its terminal action, the cache afterwards and the
host names passed to `lookupDomain`, in order. -/
structure Result where
  action : Action
  cache : Cache
  lookups : List Str

/-- The two readings of `time.Now()` that a request can take: in the freshness test of a
cached entry, and when a new entry is stored. -/
structure Clock where
  atCheck : Int
  atStore : Int

/-- The part of `ServeHTTP` after the cache check: the lookup and the switch on its status.
The cache passed in is the one the cache check leaves. -/
def serveLookup (config : Config) (cache : Cache) (net : Network) (now : Int)
    (req : Request) : Result :=
  let hostname := req.Host
  let r := lookupDomain config net hostname
  if r.err then
    { action := .next req, cache := cache, lookups := [hostname] }
  else if r.statusCode = 200 then
    let clientIP := getClientIP req
    let (uuid, allowedIPs) := parseDomainInfo r.domainInfo
    if !isIPAllowed clientIP allowedIPs then
      { action := .error "Unauthorized".data 401, cache := cache, lookups := [hostname] }
    else
      let maxAge := parseMaxAge config r.cacheControl
      let cache :=
        if maxAge > 0 then
          setCacheEntry cache hostname r.domainInfo (now + secondsDuration maxAge) false
        else cache
      { action := .next (req.setHeader "x-agency-id".data uuid)
        cache := cache, lookups := [hostname] }
  else if r.statusCode = 201 then
    let maxAge := parseMaxAge config r.cacheControl
    let cache :=
      if maxAge > 0 then
        setCacheEntry cache hostname r.domainInfo (now + secondsDuration maxAge) true
      else cache
    { action := .redirect r.domainInfo 302, cache := cache, lookups := [hostname] }
  else if r.statusCode = 404 then
    { action := .error "Page not found".data 401
      cache := setCacheEntry cache hostname "NOT FOUND".data
        (now + secondsDuration config.DefaultTTL) false
      lookups := [hostname] }
  else
    { action := .error "Unexpected error occurred".data 500, cache := cache
      lookups := [hostname] }

/-- The method `ServeHTTP`. -/
def ServeHTTP (a : DomainLookupFilter) (net : Network) (clock : Clock) (req : Request) :
    Result :=
  let hostname := req.Host
  if hostname = [] then
    { action := .next req, cache := a.cache, lookups := [] }
  else
    match getCacheEntry a.cache hostname with
    | some entry =>
      if clock.atCheck < entry.ExpiresAt then
        if entry.Value = "NOT FOUND".data then
          { action := .error "Unauthorized (404)".data 404, cache := a.cache, lookups := [] }
        else if entry.IsRedirect then
          { action := .redirect entry.Value 302, cache := a.cache, lookups := [] }
        else
          let clientIP := getClientIP req
          let (uuid, allowedIPs) := parseDomainInfo entry.Value
          if !isIPAllowed clientIP allowedIPs then
            { action := .error "Unauthorized".data 401, cache := a.cache, lookups := [] }
          else
            { action := .next (req.setHeader a.config.DomainIDHeader uuid)
              cache := a.cache, lookups := [] }
      else
        serveLookup a.config (removeCacheEntry a.cache hostname) net clock.atStore req
    | none => serveLookup a.config a.cache net clock.atStore req

/-! ## Vocabulary of the statements -/

/-- Is there an entry for `host` that is fresh at the instant `now`: the test of `ServeHTTP`,
`entry != nil` and `now.Before(entry.ExpiresAt)`. -/
def freshEntry (cache : Cache) (host : Str) (now : Int) : Bool :=
  match getCacheEntry cache host with
  | some entry => decide (now < entry.ExpiresAt)
  | none => false

/-- The plugin as the next request finds it: the same configuration, the cache a request
left behind. -/
def DomainLookupFilter.after (a : DomainLookupFilter) (r : Result) : DomainLookupFilter :=
  { a with cache := r.cache }

/-- The second `|`-separated part of a string that contains a `|`: the text after the first
`|`, up to the next `|` or to the end. -/
def secondPart (raw : Str) : Str :=
  ((raw.dropWhile (· != '|')).drop 1).takeWhile (· != '|')

/-- The number a run of decimal digits denotes. -/
def digitsValue (ds : Str) : Nat :=
  ds.foldl (fun acc c => acc * 10 + (c.toNat - 48)) 0

/-- The text `t` is a valid decimal integer with value `n`: an optional sign, then one or
more digits `0` to `9`, and the value is one of the 64-bit `int`. -/
def ValidInt (t : Str) (n : Int) : Prop :=
  ∃ sign digits : Str, t = sign ++ digits ∧ (sign = [] ∨ sign = ['+'] ∨ sign = ['-']) ∧
    digits ≠ [] ∧ (∀ c ∈ digits, 48 ≤ c.toNat ∧ c.toNat ≤ 57) ∧
    n = (if sign = ['-'] then -(digitsValue digits : Int) else (digitsValue digits : Int)) ∧
    -(2 : Int) ^ 63 ≤ n ∧ n < (2 : Int) ^ 63

/-- The directive `d` has the form `max-age=` followed by a valid decimal integer `n`. -/
def IsMaxAge (d : Str) (n : Int) : Prop :=
  ∃ t, d = "max-age=".data ++ t ∧ ValidInt t n

/-- The signed value `Atoi` builds from the digits, with its range test. -/
def signedValue (ds : Str) (neg : Bool) : Option Int :=
  match parseDigits ds 0 with
  | none => none
  | some n =>
    let v : Int := if neg then -(n : Int) else (n : Int)
    if -(2 : Int) ^ 63 ≤ v ∧ v < (2 : Int) ^ 63 then some v else none

/-- The largest number of whole seconds whose nanosecond count fits an `int64`. -/
def maxDurationSeconds : Int := 9223372036

/-! ## Sample data -/

/-- A host name. -/
def sampleHost : Str := "example.com".data

/-- A request for `sampleHost` from `10.0.0.1`, without a forwarding header. -/
def sampleRequest : Request :=
  { Host := sampleHost, Header := fun _ => [], RemoteAddr := "10.0.0.1:1234".data }

/-- The default configuration with a base URL, and a cache holding one identity record for
`sampleHost` that expires at instant `100`. -/
def sampleFilter : DomainLookupFilter :=
  { config := CreateConfig
    cache := fun k =>
      if k = sampleHost then
        some { Value := "uuid123|10.0.0.1".data, ExpiresAt := 100, IsRedirect := false }
      else none }

/-- The default configuration with an empty cache. -/
def emptyFilter : DomainLookupFilter :=
  { config := CreateConfig, cache := fun _ => none }

/-- The default configuration with `defaultTtl = 9223372037` and an empty cache. -/
def hugeTTLFilter : DomainLookupFilter :=
  { config := { CreateConfig with DefaultTTL := 9223372037 }, cache := fun _ => none }

/-- A lookup service that answers every GET with the given status, Cache-Control and body. -/
def constNetwork (statusCode : Int) (cacheControl body : Str) : Network :=
  fun _ => .response statusCode cacheControl (some body)

/-- A lookup service that cannot be reached. -/
def deadNetwork : Network := fun _ => .transportError

/-! ## Helper lemmas -/

theorem removeCacheEntry_absent (cache : Cache) (key : Str)
    (h : getCacheEntry cache key = none) : removeCacheEntry cache key = cache := by
  funext k
  unfold removeCacheEntry
  by_cases hk : k = key
  · subst hk
    simpa [getCacheEntry] using h.symm
  · simp [hk]

theorem getCacheEntry_remove (cache : Cache) (key : Str) :
    getCacheEntry (removeCacheEntry cache key) key = none := by
  simp [getCacheEntry, removeCacheEntry]

theorem getCacheEntry_set (cache : Cache) (key value : Str) (t : Int) (r : Bool) :
    getCacheEntry (setCacheEntry cache key value t r) key =
      some { Value := value, ExpiresAt := t, IsRedirect := r } := by
  simp [getCacheEntry, setCacheEntry]

/-- Without a fresh entry, a request with a host goes to the lookup with the stale entry, if
any, removed. -/
theorem ServeHTTP_no_fresh (a : DomainLookupFilter) (net : Network) (clock : Clock)
    (req : Request) (hhost : req.Host ≠ [])
    (hstale : freshEntry a.cache req.Host clock.atCheck = false) :
    ServeHTTP a net clock req =
      serveLookup a.config (removeCacheEntry a.cache req.Host) net clock.atStore req := by
  unfold ServeHTTP
  simp only [hhost, if_false]
  unfold freshEntry at hstale
  cases hc : getCacheEntry a.cache req.Host with
  | none => simp [removeCacheEntry_absent _ _ hc]
  | some entry =>
    rw [hc] at hstale
    have : ¬ clock.atCheck < entry.ExpiresAt := by simpa using hstale
    simp [this]

/-- With a fresh entry, the answer comes from the cache: no lookup, no change of the cache. -/
theorem ServeHTTP_fresh (a : DomainLookupFilter) (net : Network) (clock : Clock)
    (req : Request) (entry : CacheEntry) (hhost : req.Host ≠ [])
    (hentry : getCacheEntry a.cache req.Host = some entry)
    (hfresh : clock.atCheck < entry.ExpiresAt) :
    ServeHTTP a net clock req =
      { action :=
          if entry.Value = "NOT FOUND".data then .error "Unauthorized (404)".data 404
          else if entry.IsRedirect then .redirect entry.Value 302
          else if isIPAllowed (getClientIP req) (parseDomainInfo entry.Value).2 then
            .next (req.setHeader a.config.DomainIDHeader (parseDomainInfo entry.Value).1)
          else .error "Unauthorized".data 401,
        cache := a.cache, lookups := [] } := by
  unfold ServeHTTP
  simp only [hhost, if_false, hentry, hfresh, if_true]
  split_ifs <;> simp_all

/-- A split has at least one piece. -/
theorem Split_ne_nil (s : Str) (sep : Char) : Split s sep ≠ [] := by
  cases s with
  | nil => simp [Split]
  | cons c cs =>
    rw [Split]
    split_ifs
    · simp
    · split <;> simp

/-- The first piece of a split is the text before the first separator, and the other pieces
are the split of the text after it. -/
theorem Split_unfold (s : Str) (sep : Char) :
    Split s sep =
      s.takeWhile (· != sep) ::
        (match s.dropWhile (· != sep) with
         | [] => []
         | _ :: t => Split t sep) := by
  induction s with
  | nil => rfl
  | cons c cs ih =>
    by_cases hc : c = sep
    · subst hc
      simp [Split, List.takeWhile_cons, List.dropWhile_cons]
    · have hb : (c != sep) = true := by simpa using hc
      rw [Split, if_neg hc, ih]
      simp [List.takeWhile_cons, List.dropWhile_cons, hb]

/-- Joining the pieces of a split with the separator gives the string back. -/
theorem Split_intercalate (s : Str) (sep : Char) :
    List.intercalate [sep] (Split s sep) = s := by
  induction s with
  | nil => rfl
  | cons c cs ih =>
    by_cases hc : c = sep
    · subst hc
      rw [Split, if_pos rfl]
      cases hs : Split cs c with
      | nil => exact absurd hs (Split_ne_nil _ _)
      | cons p ps =>
        rw [hs] at ih
        simp only [List.intercalate, List.intersperse] at ih ⊢
        simpa using ih
    · rw [Split, if_neg hc]
      cases hs : Split cs sep with
      | nil => exact absurd hs (Split_ne_nil _ _)
      | cons p ps =>
        rw [hs] at ih
        cases ps with
        | nil => simpa [List.intercalate] using ih
        | cons q qs => simpa [List.intercalate] using ih

/-- No piece of a split contains the separator. -/
theorem Split_not_mem (s : Str) (sep : Char) : ∀ p ∈ Split s sep, sep ∉ p := by
  induction s with
  | nil => simp [Split]
  | cons c cs ih =>
    by_cases hc : c = sep
    · subst hc
      rw [Split, if_pos rfl]
      intro p hp
      rcases List.mem_cons.1 hp with rfl | hp
      · simp
      · exact ih p hp
    · rw [Split, if_neg hc]
      cases hs : Split cs sep with
      | nil => exact absurd hs (Split_ne_nil _ _)
      | cons q qs =>
        rw [hs] at ih
        intro p hp
        rcases List.mem_cons.1 hp with rfl | hp
        · have := ih q (List.mem_cons_self _ _)
          simp [Ne.symm hc, this]
        · exact ih p (List.mem_cons_of_mem _ hp)

/-- A string that contains the separator has it where the leading run without it ends. -/
theorem dropWhile_ne_of_mem (s : Str) (sep : Char) (h : sep ∈ s) :
    s.dropWhile (· != sep) = sep :: (s.dropWhile (· != sep)).drop 1 := by
  induction s with
  | nil => simp at h
  | cons c cs ih =>
    by_cases hc : c = sep
    · subst hc
      simp [List.dropWhile_cons]
    · have hb : (c != sep) = true := by simpa using hc
      have hmem : sep ∈ cs := by
        rcases List.mem_cons.1 h with h | h
        · exact absurd h.symm hc
        · exact h
      rw [List.dropWhile_cons, if_pos hb]
      exact ih hmem

/-- On a string with a `|`, `parseDomainInfo` returns the text before the first `|` and the
trimmed pieces of the second part. -/
theorem parseDomainInfo_shape (raw : Str) (h : '|' ∈ raw) :
    parseDomainInfo raw =
      (raw.takeWhile (· != '|'),
        if secondPart raw = [] then [] else (Split (secondPart raw) ',').map TrimSpace) := by
  unfold parseDomainInfo secondPart
  rw [Split_unfold raw '|', dropWhile_ne_of_mem raw '|' h]
  simp only [List.drop_succ_cons, List.drop_zero]
  rw [Split_unfold ((raw.dropWhile (· != '|')).drop 1) '|']
  simp only
  split_ifs <;> rfl

/-- The lookup branch makes exactly one lookup call, for the host of the request. -/
theorem serveLookup_lookups (config : Config) (cache : Cache) (net : Network) (now : Int)
    (req : Request) : (serveLookup config cache net now req).lookups = [req.Host] := by
  unfold serveLookup
  dsimp only
  split_ifs <;> rfl

theorem secondsDuration_exact (n : Int) (hlo : -maxDurationSeconds ≤ n)
    (hhi : n ≤ maxDurationSeconds) : secondsDuration n = n * Second := by
  unfold secondsDuration wrap64 Second
  unfold maxDurationSeconds at hlo hhi
  norm_num
  omega

theorem Header_Get_Set (h : Header) (key value : Str) :
    Header.Get (Header.Set h key value) key = value := by
  simp [Header.Get, Header.Set]

/-! ## The request handler: answers from the cache -/

/-- C1: a request with a host whose cache entry is fresh, is not a redirect and is not the
"NOT FOUND" sentinel is decided from the cache alone: rejected with 401 when the client
address is not allowed by the decoded allow-list, forwarded with the header named by
`config.DomainIDHeader` set to the decoded identity otherwise; no lookup call is made and
the cache is unchanged. -/
theorem ServeHTTP_cache_hit (a : DomainLookupFilter) (net : Network) (clock : Clock)
    (req : Request) (entry : CacheEntry) (hhost : req.Host ≠ [])
    (hentry : getCacheEntry a.cache req.Host = some entry)
    (hfresh : clock.atCheck < entry.ExpiresAt)
    (hredirect : entry.IsRedirect = false)
    (hvalue : entry.Value ≠ "NOT FOUND".data) :
    (isIPAllowed (getClientIP req) (parseDomainInfo entry.Value).2 = false →
        (ServeHTTP a net clock req).action = .error "Unauthorized".data 401) ∧
      (isIPAllowed (getClientIP req) (parseDomainInfo entry.Value).2 = true →
        (ServeHTTP a net clock req).action =
            .next
              (req.setHeader a.config.DomainIDHeader (parseDomainInfo entry.Value).1) ∧
          Header.Get
              (req.setHeader a.config.DomainIDHeader (parseDomainInfo entry.Value).1).Header
              a.config.DomainIDHeader =
            (parseDomainInfo entry.Value).1) ∧
      (ServeHTTP a net clock req).lookups = [] ∧
      (ServeHTTP a net clock req).cache = a.cache := by
  rw [ServeHTTP_fresh a net clock req entry hhost hentry hfresh]
  refine ⟨?_, ?_, rfl, rfl⟩
  · intro h
    simp [h, hvalue, hredirect]
  · intro h
    exact ⟨by simp [h, hvalue, hredirect], Header_Get_Set _ _ _⟩

/-- C1, at the sample request: the cached record allows `10.0.0.1`, so the request is
forwarded with `X-Domain-Id` carrying `uuid123`. -/
theorem ServeHTTP_cache_hit_witness :
    (ServeHTTP sampleFilter deadNetwork ⟨50, 50⟩ sampleRequest).action =
        .next
          (sampleRequest.setHeader "x-domain-id".data "uuid123".data) ∧
      (ServeHTTP sampleFilter deadNetwork ⟨50, 50⟩ sampleRequest).lookups = [] ∧
      (ServeHTTP sampleFilter deadNetwork ⟨50, 50⟩ sampleRequest).cache = sampleFilter.cache :=
  have h := ServeHTTP_cache_hit sampleFilter deadNetwork ⟨50, 50⟩ sampleRequest
    { Value := "uuid123|10.0.0.1".data, ExpiresAt := 100, IsRedirect := false }
    (by decide) (by decide) (by decide) rfl (by decide)
  ⟨(h.2.1 (by decide)).1, h.2.2.1, h.2.2.2⟩

/-! ## The request handler: the lookup fails -/

/-- C3: a request with a host and no fresh cache entry whose lookup call returns an error is
forwarded to the next handler with the request unmodified (so no rejection and no redirect),
after exactly one lookup call, and afterwards the cache has no entry for the host: it is the
cache before the request with the stale entry, if there was one, removed. -/
theorem ServeHTTP_fail_open (a : DomainLookupFilter) (net : Network) (clock : Clock)
    (req : Request) (hhost : req.Host ≠ [])
    (hstale : freshEntry a.cache req.Host clock.atCheck = false)
    (herr : (lookupDomain a.config net req.Host).err = true) :
    (ServeHTTP a net clock req).action = .next req ∧
      (ServeHTTP a net clock req).lookups = [req.Host] ∧
      getCacheEntry (ServeHTTP a net clock req).cache req.Host = none ∧
      (ServeHTTP a net clock req).cache = removeCacheEntry a.cache req.Host := by
  rw [ServeHTTP_no_fresh a net clock req hhost hstale]
  unfold serveLookup
  simp [herr, getCacheEntry_remove]

/-- C3, at the sample request with a stale entry and an unreachable lookup service. -/
theorem ServeHTTP_fail_open_witness :
    (ServeHTTP sampleFilter deadNetwork ⟨100, 100⟩ sampleRequest).action = .next sampleRequest ∧
      (ServeHTTP sampleFilter deadNetwork ⟨100, 100⟩ sampleRequest).lookups = [sampleHost] ∧
      getCacheEntry (ServeHTTP sampleFilter deadNetwork ⟨100, 100⟩ sampleRequest).cache
        sampleHost = none :=
  have h := ServeHTTP_fail_open sampleFilter deadNetwork ⟨100, 100⟩ sampleRequest
    (by decide) (by decide) (by decide)
  ⟨h.1, h.2.1, h.2.2.1⟩

/-! ## The request handler: the lookup answers 200 -/

/-- C4, amended: a request with a host and no fresh cache entry whose lookup returns status
404, with any body and any Cache-Control, is rejected, for every `config.DefaultTTL`, after
one lookup call, and the cache afterwards maps the host to a "NOT FOUND" entry that is not a
redirect, whatever the Cache-Control; its `ExpiresAt` is `now` plus the nanosecond count
`time.Duration(DefaultTTL) * time.Second`, which is `now + config.DefaultTTL seconds` when
`config.DefaultTTL` is between -9223372036 and 9223372036; every later request for the host
at an instant strictly before that `ExpiresAt` is rejected with status 404 from the cache,
without a lookup call. -/
theorem ServeHTTP_not_found (a : DomainLookupFilter) (net : Network) (clock : Clock)
    (req : Request) (b cc : Str) (hhost : req.Host ≠ [])
    (hstale : freshEntry a.cache req.Host clock.atCheck = false)
    (hlookup : lookupDomain a.config net req.Host =
      { domainInfo := b, statusCode := 404, cacheControl := cc, err := false }) :
    (ServeHTTP a net clock req).action = .error "Page not found".data 401 ∧
      (ServeHTTP a net clock req).lookups = [req.Host] ∧
      getCacheEntry (ServeHTTP a net clock req).cache req.Host =
        some { Value := "NOT FOUND".data,
               ExpiresAt := clock.atStore + secondsDuration a.config.DefaultTTL,
               IsRedirect := false } ∧
      (-maxDurationSeconds ≤ a.config.DefaultTTL → a.config.DefaultTTL ≤ maxDurationSeconds →
        getCacheEntry (ServeHTTP a net clock req).cache req.Host =
          some { Value := "NOT FOUND".data,
                 ExpiresAt := clock.atStore + a.config.DefaultTTL * Second,
                 IsRedirect := false }) ∧
      (∀ (net2 : Network) (clock2 : Clock) (req2 : Request), req2.Host = req.Host →
        clock2.atCheck < clock.atStore + secondsDuration a.config.DefaultTTL →
        (ServeHTTP (a.after (ServeHTTP a net clock req)) net2 clock2 req2).action =
            .error "Unauthorized (404)".data 404 ∧
          (ServeHTTP (a.after (ServeHTTP a net clock req)) net2 clock2 req2).lookups = []) ∧
      (-maxDurationSeconds ≤ a.config.DefaultTTL → a.config.DefaultTTL ≤ maxDurationSeconds →
        ∀ (net2 : Network) (clock2 : Clock) (req2 : Request), req2.Host = req.Host →
          clock2.atCheck < clock.atStore + a.config.DefaultTTL * Second →
          (ServeHTTP (a.after (ServeHTTP a net clock req)) net2 clock2 req2).action =
              .error "Unauthorized (404)".data 404 ∧
            (ServeHTTP (a.after (ServeHTTP a net clock req)) net2 clock2 req2).lookups =
              []) := by
  have hserve : ServeHTTP a net clock req =
      { action := .error "Page not found".data 401,
        cache := setCacheEntry (removeCacheEntry a.cache req.Host) req.Host "NOT FOUND".data
          (clock.atStore + secondsDuration a.config.DefaultTTL) false,
        lookups := [req.Host] } := by
    rw [ServeHTTP_no_fresh a net clock req hhost hstale]
    unfold serveLookup
    simp [hlookup]
  have hcache : getCacheEntry (ServeHTTP a net clock req).cache req.Host =
      some { Value := "NOT FOUND".data,
             ExpiresAt := clock.atStore + secondsDuration a.config.DefaultTTL,
             IsRedirect := false } := by
    rw [hserve]
    exact getCacheEntry_set _ _ _ _ _
  have hlater : ∀ (net2 : Network) (clock2 : Clock) (req2 : Request), req2.Host = req.Host →
      clock2.atCheck < clock.atStore + secondsDuration a.config.DefaultTTL →
      (ServeHTTP (a.after (ServeHTTP a net clock req)) net2 clock2 req2).action =
          .error "Unauthorized (404)".data 404 ∧
        (ServeHTTP (a.after (ServeHTTP a net clock req)) net2 clock2 req2).lookups = [] := by
    intro net2 clock2 req2 hsame hbefore
    have hhost2 : req2.Host ≠ [] := by rw [hsame]; exact hhost
    have hentry2 : getCacheEntry (a.after (ServeHTTP a net clock req)).cache req2.Host =
        some { Value := "NOT FOUND".data,
               ExpiresAt := clock.atStore + secondsDuration a.config.DefaultTTL,
               IsRedirect := false } := by
      rw [hsame]
      exact hcache
    rw [ServeHTTP_fresh _ net2 clock2 req2 _ hhost2 hentry2 hbefore]
    simp
  refine ⟨by rw [hserve], by rw [hserve], hcache, ?_, hlater, ?_⟩
  · intro hlo hhi
    rw [hcache, secondsDuration_exact _ hlo hhi]
  · intro hlo hhi net2 clock2 req2 hsame hbefore
    rw [← secondsDuration_exact _ hlo hhi] at hbefore
    exact hlater net2 clock2 req2 hsame hbefore

/-- C4, at the sample request: the default TTL of 60 seconds is used although the 404
response carries `max-age=5`, and a second request 59 seconds later is answered 404 from the
cache. -/
theorem ServeHTTP_not_found_witness :
    (ServeHTTP emptyFilter (constNetwork 404 "max-age=5".data []) ⟨0, 0⟩
        sampleRequest).action = .error "Page not found".data 401 ∧
      getCacheEntry
          (ServeHTTP emptyFilter (constNetwork 404 "max-age=5".data []) ⟨0, 0⟩
            sampleRequest).cache sampleHost =
        some { Value := "NOT FOUND".data, ExpiresAt := 60 * 1000000000,
               IsRedirect := false } ∧
      (ServeHTTP
          (emptyFilter.after
            (ServeHTTP emptyFilter (constNetwork 404 "max-age=5".data []) ⟨0, 0⟩
              sampleRequest))
          deadNetwork ⟨59000000000, 59000000000⟩ sampleRequest).action =
        .error "Unauthorized (404)".data 404 :=
  have h := ServeHTTP_not_found emptyFilter (constNetwork 404 "max-age=5".data []) ⟨0, 0⟩
    sampleRequest [] "max-age=5".data (by decide) (by decide) (by decide)
  ⟨h.1, h.2.2.2.1 (by decide) (by decide),
    (h.2.2.2.2.2 (by decide) (by decide) deadNetwork ⟨59000000000, 59000000000⟩
      sampleRequest rfl (by decide)).1⟩

/-- C4 as stated fails: with `defaultTtl = 9223372037` a 404 answer stores an entry that
expires 9223372036709551616 nanoseconds before the instant of the store, not 9223372037
seconds after it. -/
theorem ServeHTTP_not_found_overflow :
    (New hugeTTLFilter.config).toOption.map (fun f => f.config.DefaultTTL) =
        some 9223372037 ∧
      sampleRequest.Host ≠ [] ∧
      freshEntry hugeTTLFilter.cache sampleRequest.Host 0 = false ∧
      lookupDomain hugeTTLFilter.config (constNetwork 404 [] []) sampleRequest.Host =
        { domainInfo := [], statusCode := 404, cacheControl := [], err := false } ∧
      getCacheEntry
          (ServeHTTP hugeTTLFilter (constNetwork 404 [] []) ⟨0, 0⟩ sampleRequest).cache
          sampleRequest.Host ≠
        some { Value := "NOT FOUND".data,
               ExpiresAt := 0 + hugeTTLFilter.config.DefaultTTL * Second,
               IsRedirect := false } ∧
      getCacheEntry
          (ServeHTTP hugeTTLFilter (constNetwork 404 [] []) ⟨0, 0⟩ sampleRequest).cache
          sampleRequest.Host =
        some { Value := "NOT FOUND".data, ExpiresAt := -9223372036709551616,
               IsRedirect := false } := by
  decide

/-! ## The request handler: the lookup answers 201 -/

/-- C5, amended: a request with a host and no fresh cache entry whose lookup returns status
201 with body `u` is answered with a 302 redirect to `u`, for every max-age and whether or
not anything is cached, after one lookup call; with `maxAge = parseMaxAge cc`, the cache
afterwards holds no entry for the host when `maxAge ≤ 0` and a redirect entry with value `u`
when `maxAge > 0`, whose `ExpiresAt` is `now` plus the nanosecond count
`time.Duration(maxAge) * time.Second`; so for `maxAge ≤ 9223372036` the cache holds
`(u, now + maxAge seconds, true)` for the host exactly when `maxAge > 0`; and when `u` is
not the text "NOT FOUND", a later request for the host while the stored entry is fresh is
answered with a 302 redirect to `u` without a lookup call. -/
theorem ServeHTTP_redirect (a : DomainLookupFilter) (net : Network) (clock : Clock)
    (req : Request) (u cc : Str) (hhost : req.Host ≠ [])
    (hstale : freshEntry a.cache req.Host clock.atCheck = false)
    (hlookup : lookupDomain a.config net req.Host =
      { domainInfo := u, statusCode := 201, cacheControl := cc, err := false }) :
    (ServeHTTP a net clock req).action = .redirect u 302 ∧
      (ServeHTTP a net clock req).lookups = [req.Host] ∧
      (0 < parseMaxAge a.config cc →
        getCacheEntry (ServeHTTP a net clock req).cache req.Host =
          some { Value := u,
                 ExpiresAt := clock.atStore + secondsDuration (parseMaxAge a.config cc),
                 IsRedirect := true }) ∧
      (parseMaxAge a.config cc ≤ maxDurationSeconds →
        (getCacheEntry (ServeHTTP a net clock req).cache req.Host =
            some { Value := u, ExpiresAt := clock.atStore + parseMaxAge a.config cc * Second,
                   IsRedirect := true } ↔
          0 < parseMaxAge a.config cc)) ∧
      (parseMaxAge a.config cc ≤ 0 →
        getCacheEntry (ServeHTTP a net clock req).cache req.Host = none) ∧
      (0 < parseMaxAge a.config cc → u ≠ "NOT FOUND".data →
        ∀ (net2 : Network) (clock2 : Clock) (req2 : Request), req2.Host = req.Host →
          clock2.atCheck < clock.atStore + secondsDuration (parseMaxAge a.config cc) →
          (ServeHTTP (a.after (ServeHTTP a net clock req)) net2 clock2 req2).action =
              .redirect u 302 ∧
            (ServeHTTP (a.after (ServeHTTP a net clock req)) net2 clock2 req2).lookups =
              []) ∧
      (parseMaxAge a.config cc ≤ maxDurationSeconds → 0 < parseMaxAge a.config cc →
        u ≠ "NOT FOUND".data →
        ∀ (net2 : Network) (clock2 : Clock) (req2 : Request), req2.Host = req.Host →
          clock2.atCheck < clock.atStore + parseMaxAge a.config cc * Second →
          (ServeHTTP (a.after (ServeHTTP a net clock req)) net2 clock2 req2).action =
              .redirect u 302 ∧
            (ServeHTTP (a.after (ServeHTTP a net clock req)) net2 clock2 req2).lookups =
              []) := by
  have hserve : ServeHTTP a net clock req =
      { action := .redirect u 302,
        cache :=
          if parseMaxAge a.config cc > 0 then
            setCacheEntry (removeCacheEntry a.cache req.Host) req.Host u
              (clock.atStore + secondsDuration (parseMaxAge a.config cc)) true
          else removeCacheEntry a.cache req.Host,
        lookups := [req.Host] } := by
    rw [ServeHTTP_no_fresh a net clock req hhost hstale]
    unfold serveLookup
    simp [hlookup]
  have hexact : parseMaxAge a.config cc ≤ maxDurationSeconds → 0 < parseMaxAge a.config cc →
      secondsDuration (parseMaxAge a.config cc) = parseMaxAge a.config cc * Second := by
    intro hhi hp
    have hlo : -maxDurationSeconds ≤ parseMaxAge a.config cc := by
      unfold maxDurationSeconds
      omega
    exact secondsDuration_exact _ hlo hhi
  have hpos : 0 < parseMaxAge a.config cc →
      getCacheEntry (ServeHTTP a net clock req).cache req.Host =
        some { Value := u,
               ExpiresAt := clock.atStore + secondsDuration (parseMaxAge a.config cc),
               IsRedirect := true } := by
    intro hp
    rw [hserve]
    simp [hp, getCacheEntry_set]
  have hnone : parseMaxAge a.config cc ≤ 0 →
      getCacheEntry (ServeHTTP a net clock req).cache req.Host = none := by
    intro hle
    have : ¬ parseMaxAge a.config cc > 0 := by omega
    rw [hserve]
    simp [this, getCacheEntry_remove]
  have hlater : 0 < parseMaxAge a.config cc → u ≠ "NOT FOUND".data →
      ∀ (net2 : Network) (clock2 : Clock) (req2 : Request), req2.Host = req.Host →
        clock2.atCheck < clock.atStore + secondsDuration (parseMaxAge a.config cc) →
        (ServeHTTP (a.after (ServeHTTP a net clock req)) net2 clock2 req2).action =
            .redirect u 302 ∧
          (ServeHTTP (a.after (ServeHTTP a net clock req)) net2 clock2 req2).lookups =
            [] := by
    intro hp hu net2 clock2 req2 hsame hbefore
    have hhost2 : req2.Host ≠ [] := by rw [hsame]; exact hhost
    have hentry2 : getCacheEntry (a.after (ServeHTTP a net clock req)).cache req2.Host =
        some { Value := u,
               ExpiresAt := clock.atStore + secondsDuration (parseMaxAge a.config cc),
               IsRedirect := true } := by
      rw [hsame]
      exact hpos hp
    rw [ServeHTTP_fresh _ net2 clock2 req2 _ hhost2 hentry2 hbefore]
    simp [hu]
  refine ⟨by rw [hserve], by rw [hserve], hpos, ?_, hnone, hlater, ?_⟩
  · intro hhi
    constructor
    · intro hsome
      by_contra hneg
      rw [hnone (by omega)] at hsome
      exact Option.noConfusion hsome
    · intro hp
      rw [hpos hp, hexact hhi hp]
  · intro hhi hp hu net2 clock2 req2 hsame hbefore
    rw [← hexact hhi hp] at hbefore
    exact hlater hp hu net2 clock2 req2 hsame hbefore

/-- C5, at the sample request: a 201 answer with `max-age=30` redirects, stores a redirect
entry for 30 seconds, and a second request 29 seconds later is redirected from the cache. -/
theorem ServeHTTP_redirect_witness :
    (ServeHTTP emptyFilter (constNetwork 201 "max-age=30".data "https://b.example/".data)
        ⟨0, 0⟩ sampleRequest).action = .redirect "https://b.example/".data 302 ∧
      getCacheEntry
          (ServeHTTP emptyFilter
            (constNetwork 201 "max-age=30".data "https://b.example/".data) ⟨0, 0⟩
            sampleRequest).cache sampleHost =
        some { Value := "https://b.example/".data, ExpiresAt := 30 * 1000000000,
               IsRedirect := true } ∧
      (ServeHTTP
          (emptyFilter.after
            (ServeHTTP emptyFilter
              (constNetwork 201 "max-age=30".data "https://b.example/".data) ⟨0, 0⟩
              sampleRequest))
          deadNetwork ⟨29000000000, 29000000000⟩ sampleRequest).action =
        .redirect "https://b.example/".data 302 :=
  have h := ServeHTTP_redirect emptyFilter
    (constNetwork 201 "max-age=30".data "https://b.example/".data) ⟨0, 0⟩ sampleRequest
    "https://b.example/".data "max-age=30".data (by decide) (by decide) (by decide)
  ⟨h.1, (h.2.2.2.1 (by decide)).2 (by decide),
    (h.2.2.2.2.2.2 (by decide) (by decide) (by decide) deadNetwork
      ⟨29000000000, 29000000000⟩ sampleRequest rfl (by decide)).1⟩

/-- C5 as stated fails, in two ways. With `Cache-Control: max-age=9223372037` the nanosecond
count wraps, so the redirect entry stored is not `(u, now + maxAge seconds, true)`. And with
the body "NOT FOUND" and `max-age=30`, the entry `("NOT FOUND", now + 30 s, true)` is stored,
but a request one nanosecond later, while it is fresh, is answered 404 and not with a
redirect, because the sentinel test comes before the redirect test. -/
theorem ServeHTTP_redirect_fails :
    (lookupDomain emptyFilter.config
          (constNetwork 201 "max-age=9223372037".data "https://b.example/".data)
          sampleRequest.Host =
        { domainInfo := "https://b.example/".data, statusCode := 201,
          cacheControl := "max-age=9223372037".data, err := false } ∧
      0 < parseMaxAge emptyFilter.config "max-age=9223372037".data ∧
      getCacheEntry
          (ServeHTTP emptyFilter
            (constNetwork 201 "max-age=9223372037".data "https://b.example/".data)
            ⟨0, 0⟩ sampleRequest).cache sampleRequest.Host ≠
        some { Value := "https://b.example/".data,
               ExpiresAt := 0 + parseMaxAge emptyFilter.config "max-age=9223372037".data *
                 Second,
               IsRedirect := true }) ∧
      (lookupDomain emptyFilter.config (constNetwork 201 "max-age=30".data "NOT FOUND".data)
          sampleRequest.Host =
        { domainInfo := "NOT FOUND".data, statusCode := 201,
          cacheControl := "max-age=30".data, err := false } ∧
      getCacheEntry
          (ServeHTTP emptyFilter (constNetwork 201 "max-age=30".data "NOT FOUND".data)
            ⟨0, 0⟩ sampleRequest).cache sampleRequest.Host =
        some { Value := "NOT FOUND".data, ExpiresAt := 30 * 1000000000,
               IsRedirect := true } ∧
      (ServeHTTP
          (emptyFilter.after
            (ServeHTTP emptyFilter (constNetwork 201 "max-age=30".data "NOT FOUND".data)
              ⟨0, 0⟩ sampleRequest))
          (constNetwork 201 "max-age=30".data "NOT FOUND".data) ⟨1, 1⟩
          sampleRequest).action =
        .error "Unauthorized (404)".data 404) := by
  refine ⟨by decide, by decide, by decide, rfl⟩

/-! ## The request handler: the lookup answers 200 and the client is not allowed -/

/-- C6, amended: a request with a host and no fresh cache entry whose lookup returns status
200 with body `b`, from a client address that the allow-list decoded from `b` does not
allow, is rejected with status 401 before anything is stored: the record `b` is not cached,
the cache afterwards has no entry for the host, and the next request for the host makes a
new lookup call. -/
theorem ServeHTTP_denied_not_cached (a : DomainLookupFilter) (net : Network) (clock : Clock)
    (req : Request) (b cc : Str) (hhost : req.Host ≠ [])
    (hstale : freshEntry a.cache req.Host clock.atCheck = false)
    (hlookup : lookupDomain a.config net req.Host =
      { domainInfo := b, statusCode := 200, cacheControl := cc, err := false })
    (hdenied : isIPAllowed (getClientIP req) (parseDomainInfo b).2 = false) :
    (ServeHTTP a net clock req).action = .error "Unauthorized".data 401 ∧
      (ServeHTTP a net clock req).cache = removeCacheEntry a.cache req.Host ∧
      getCacheEntry (ServeHTTP a net clock req).cache req.Host = none ∧
      ∀ (net2 : Network) (clock2 : Clock) (req2 : Request), req2.Host = req.Host →
        (ServeHTTP (a.after (ServeHTTP a net clock req)) net2 clock2 req2).lookups =
          [req.Host] := by
  have hserve : ServeHTTP a net clock req =
      { action := .error "Unauthorized".data 401, cache := removeCacheEntry a.cache req.Host,
        lookups := [req.Host] } := by
    rw [ServeHTTP_no_fresh a net clock req hhost hstale]
    unfold serveLookup
    simp [hlookup, hdenied]
  refine ⟨by rw [hserve], by rw [hserve], by rw [hserve]; exact getCacheEntry_remove _ _, ?_⟩
  intro net2 clock2 req2 hsame
  have hhost2 : req2.Host ≠ [] := by rw [hsame]; exact hhost
  have hstale2 : freshEntry (a.after (ServeHTTP a net clock req)).cache req2.Host
      clock2.atCheck = false := by
    unfold freshEntry DomainLookupFilter.after
    rw [hserve, hsame]
    simp [getCacheEntry_remove]
  rw [ServeHTTP_no_fresh _ net2 clock2 req2 hhost2 hstale2, ← hsame]
  exact serveLookup_lookups _ _ _ _ _

/-- C6, at the sample request: the record allows only `192.168.1.1`, the client `10.0.0.1` is
rejected and no entry is left for the host. -/
theorem ServeHTTP_denied_not_cached_witness :
    (ServeHTTP emptyFilter (constNetwork 200 "max-age=120".data "uuid123|192.168.1.1".data)
        ⟨0, 0⟩ sampleRequest).action = .error "Unauthorized".data 401 ∧
      getCacheEntry
          (ServeHTTP emptyFilter
            (constNetwork 200 "max-age=120".data "uuid123|192.168.1.1".data) ⟨0, 0⟩
            sampleRequest).cache sampleHost = none :=
  have h := ServeHTTP_denied_not_cached emptyFilter
    (constNetwork 200 "max-age=120".data "uuid123|192.168.1.1".data) ⟨0, 0⟩ sampleRequest
    "uuid123|192.168.1.1".data "max-age=120".data (by decide) (by decide) (by decide)
    (by decide)
  ⟨h.1, h.2.2.1⟩

/-- C6 as stated fails: the lookup answers 200 with the record `uuid123|192.168.1.1` and
`max-age=120`, the client `10.0.0.1` is not in the allow-list and is rejected with 401, and
the record is not cached: no entry is left for the host, and the next request, one
nanosecond later and from the allowed address, makes a lookup call of its own. -/
theorem ServeHTTP_denied_record_absent :
    freshEntry emptyFilter.cache sampleRequest.Host 0 = false ∧
      lookupDomain emptyFilter.config
          (constNetwork 200 "max-age=120".data "uuid123|192.168.1.1".data)
          sampleRequest.Host =
        { domainInfo := "uuid123|192.168.1.1".data, statusCode := 200,
          cacheControl := "max-age=120".data, err := false } ∧
      0 < parseMaxAge emptyFilter.config "max-age=120".data ∧
      isIPAllowed (getClientIP sampleRequest)
        (parseDomainInfo "uuid123|192.168.1.1".data).2 = false ∧
      getCacheEntry
          (ServeHTTP emptyFilter
            (constNetwork 200 "max-age=120".data "uuid123|192.168.1.1".data) ⟨0, 0⟩
            sampleRequest).cache sampleRequest.Host = none ∧
      (ServeHTTP
          (emptyFilter.after
            (ServeHTTP emptyFilter
              (constNetwork 200 "max-age=120".data "uuid123|192.168.1.1".data) ⟨0, 0⟩
              sampleRequest))
          (constNetwork 200 "max-age=120".data "uuid123|192.168.1.1".data) ⟨1, 1⟩
          { sampleRequest with RemoteAddr := "192.168.1.1:4321".data }).lookups =
        [sampleHost] := by
  decide

/-! ## The request handler: the name of the injected header -/

/-- C7, the code at the failing input: under the default configuration, whose
`DomainIDHeader` is `x-domain-id`, a request answered 200 with the record `uuid123|` is
forwarded with the identity in the header `x-agency-id`; the forwarded request has no value
in the header named by the configuration, the one the cache-hit path writes. -/
theorem ServeHTTP_lookup_header_name :
    emptyFilter.config.DomainIDHeader = "x-domain-id".data ∧
      (ServeHTTP emptyFilter (constNetwork 200 [] "uuid123|".data) ⟨0, 0⟩
        sampleRequest).action =
        .next (sampleRequest.setHeader "x-agency-id".data "uuid123".data) ∧
      Header.Get (sampleRequest.setHeader "x-agency-id".data "uuid123".data).Header
        "x-agency-id".data = "uuid123".data ∧
      Header.Get (sampleRequest.setHeader "x-agency-id".data "uuid123".data).Header
        emptyFilter.config.DomainIDHeader = [] ∧
      (sampleRequest.setHeader "x-agency-id".data "uuid123".data).Header "X-Domain-Id".data =
        [] :=
  ⟨rfl, rfl, by decide, by decide, by decide⟩

/-! ## The access control evaluator -/

/-- C8: `isIPAllowed clientIP allowedIPs` is true exactly when the allow-list is empty or one
of its entries, trimmed of surrounding white space, equals `clientIP`; so the empty list
permits every client address, and a non-empty list without a matching entry denies. -/
theorem isIPAllowed_iff (clientIP : Str) (allowedIPs : List Str) :
    (isIPAllowed clientIP allowedIPs = true ↔
        allowedIPs = [] ∨ ∃ allowedIP ∈ allowedIPs, TrimSpace allowedIP = clientIP) ∧
      isIPAllowed clientIP [] = true ∧
      (allowedIPs ≠ [] → (∀ allowedIP ∈ allowedIPs, TrimSpace allowedIP ≠ clientIP) →
        isIPAllowed clientIP allowedIPs = false) := by
  have hiff : isIPAllowed clientIP allowedIPs = true ↔
      allowedIPs = [] ∨ ∃ allowedIP ∈ allowedIPs, TrimSpace allowedIP = clientIP := by
    unfold isIPAllowed
    cases allowedIPs with
    | nil => simp
    | cons x xs => simp [List.any_eq_true]
  refine ⟨hiff, rfl, ?_⟩
  intro hne hall
  cases hb : isIPAllowed clientIP allowedIPs with
  | false => rfl
  | true =>
    rcases hiff.1 hb with h | ⟨x, hx, hxe⟩
    · exact absurd h hne
    · exact absurd hxe (hall x hx)

/-- C8, on the allow-lists of the tests: a padded entry matches after trimming, and a list
without the client address denies. -/
theorem isIPAllowed_iff_witness :
    isIPAllowed "192.168.1.1".data [" 192.168.1.1 ".data, "10.0.0.1".data] = true ∧
      isIPAllowed "172.16.0.1".data ["192.168.1.1".data, "10.0.0.1".data] = false :=
  ⟨(isIPAllowed_iff "192.168.1.1".data [" 192.168.1.1 ".data, "10.0.0.1".data]).1.2
      (Or.inr ⟨" 192.168.1.1 ".data, by decide, by decide⟩),
    (isIPAllowed_iff "172.16.0.1".data ["192.168.1.1".data, "10.0.0.1".data]).2.2
      (by decide) (by decide)⟩

/-! ## The domain info codec -/

/-- C9: for a raw string that contains a `|`, `parseDomainInfo` returns as identity the text
before the first `|`, verbatim, and as allow-list the empty list when the second
`|`-separated part is empty, and otherwise the pieces of the second part between its commas,
each trimmed of surrounding white space, in their order; the two records of the tests decode
as the tests say. -/
theorem parseDomainInfo_delimited (raw : Str) (h : '|' ∈ raw) :
    parseDomainInfo raw =
        (raw.takeWhile (· != '|'),
          if secondPart raw = [] then [] else (Split (secondPart raw) ',').map TrimSpace) ∧
      parseDomainInfo "uuid123|192.168.1.1,10.0.0.1,172.16.0.1".data =
        ("uuid123".data, ["192.168.1.1".data, "10.0.0.1".data, "172.16.0.1".data]) ∧
      parseDomainInfo "uuid456|".data = ("uuid456".data, []) := by
  refine ⟨?_, by decide, by decide⟩
  unfold parseDomainInfo secondPart
  rw [Split_unfold raw '|', dropWhile_ne_of_mem raw '|' h]
  simp only [List.drop_succ_cons, List.drop_zero]
  rw [Split_unfold ((raw.dropWhile (· != '|')).drop 1) '|']
  simp only
  split_ifs <;> rfl

/-- C9, at a record with padded addresses and a third `|`-separated part: the identity is
kept verbatim, the addresses are trimmed, the third part is ignored. -/
theorem parseDomainInfo_delimited_witness :
    parseDomainInfo " id |1.1.1.1 , 2.2.2.2|x".data =
      (" id ".data, ["1.1.1.1".data, "2.2.2.2".data]) :=
  ((parseDomainInfo_delimited " id |1.1.1.1 , 2.2.2.2|x".data (by decide)).1).trans
    (by decide)

/-- C10: for a raw string without a `|`, the empty string included, `parseDomainInfo`
returns the empty identity and the empty allow-list; being a total function, it returns a
record for every input. -/
theorem parseDomainInfo_undelimited (raw : Str) (h : '|' ∉ raw) :
    parseDomainInfo raw = ([], []) := by
  have hdrop : raw.dropWhile (· != '|') = [] := by
    rw [List.dropWhile_eq_nil_iff]
    intro x hx
    have : x ≠ '|' := fun hxe => h (hxe ▸ hx)
    simpa using this
  unfold parseDomainInfo
  rw [Split_unfold raw '|', hdrop]

/-- C10, at the undelimited record of the tests and at the empty string. -/
theorem parseDomainInfo_undelimited_witness :
    parseDomainInfo "uuid789".data = ([], []) ∧ parseDomainInfo [] = ([], []) :=
  ⟨parseDomainInfo_undelimited "uuid789".data (by decide),
    parseDomainInfo_undelimited [] (by decide)⟩

/-! ## The TTL cache -/

/-- C15: in every cache, `getCacheEntry k` after `setCacheEntry k v t r` returns the entry
with `Value = v`, `ExpiresAt = t` and `IsRedirect = r`, whatever was stored for `k` before,
and `getCacheEntry k` after `removeCacheEntry k` returns absence, whether or not `k` was
present. -/
theorem cache_round_trip (cache : Cache) (k v : Str) (t : Int) (r : Bool) :
    getCacheEntry (setCacheEntry cache k v t r) k =
        some { Value := v, ExpiresAt := t, IsRedirect := r } ∧
      getCacheEntry (removeCacheEntry cache k) k = none ∧
      getCacheEntry (removeCacheEntry (setCacheEntry cache k v t r) k) k = none := by
  simp [getCacheEntry, setCacheEntry, removeCacheEntry]

/-! ## Construction -/

/-- C16: `New` returns an error exactly when `config.LookupServiceURL` is empty; when it
succeeds, the plugin keeps the given `LookupServiceURL`, keeps a positive `DefaultTTL`,
replaces a `DefaultTTL ≤ 0` by 60, so its `DefaultTTL` is strictly positive, and its cache
is empty. -/
theorem New_spec (config : Config) :
    ((∃ msg, New config = .error msg) ↔ config.LookupServiceURL = []) ∧
      (config.LookupServiceURL ≠ [] →
        ∃ a, New config = .ok a ∧
          a.config.LookupServiceURL = config.LookupServiceURL ∧
          (0 < config.DefaultTTL → a.config.DefaultTTL = config.DefaultTTL) ∧
          (config.DefaultTTL ≤ 0 → a.config.DefaultTTL = 60) ∧
          0 < a.config.DefaultTTL ∧
          ∀ k, getCacheEntry a.cache k = none) := by
  constructor
  · constructor
    · rintro ⟨msg, hmsg⟩
      by_contra hne
      simp [New, hne] at hmsg
    · intro hempty
      exact ⟨"lookupServiceUrl is required".data, by simp [New, hempty]⟩
  · intro hne
    by_cases httl : config.DefaultTTL ≤ 0
    · refine ⟨{ config := { config with DefaultTTL := 60 }, cache := fun _ => none }, ?_⟩
      refine ⟨by simp [New, hne, httl], rfl, ?_, fun _ => rfl, ?_, fun _ => rfl⟩
      · intro hpos
        omega
      · show (0 : Int) < 60
        decide
    · refine ⟨{ config := config, cache := fun _ => none }, ?_⟩
      refine ⟨by simp [New, hne, httl], rfl, fun _ => rfl, ?_, ?_, fun _ => rfl⟩
      · intro hle
        exact absurd hle httl
      · show 0 < config.DefaultTTL
        omega

/-- C16, at the configurations of the tests: a base URL with `defaultTtl = 120` keeps 120,
and `defaultTtl = 0` becomes 60. -/
theorem New_spec_witness :
    (∃ a, New { CreateConfig with LookupServiceURL := "http://test-domain".data,
                                  DefaultTTL := 120 } = .ok a ∧
        a.config.LookupServiceURL = "http://test-domain".data ∧
        a.config.DefaultTTL = 120) ∧
      (∃ a, New { CreateConfig with DefaultTTL := 0 } = .ok a ∧ a.config.DefaultTTL = 60) :=
  have h1 := (New_spec { CreateConfig with LookupServiceURL := "http://test-domain".data,
                                           DefaultTTL := 120 }).2 (by decide)
  have h2 := (New_spec { CreateConfig with DefaultTTL := 0 }).2 (by decide)
  ⟨h1.elim fun a ha => ⟨a, ha.1, ha.2.1, ha.2.2.1 (by decide)⟩,
    h2.elim fun a ha => ⟨a, ha.1, ha.2.2.2.1 (by decide)⟩⟩

/-! ## The request handler: no host -/

/-- C17: a request whose `Host` is empty is forwarded to the next handler unmodified (so
there is no rejection and no redirect), in every cache state: no lookup call is made and the
cache is unchanged. -/
theorem ServeHTTP_no_host (a : DomainLookupFilter) (net : Network) (clock : Clock)
    (req : Request) (hhost : req.Host = []) :
    (ServeHTTP a net clock req).action = .next req ∧
      (ServeHTTP a net clock req).lookups = [] ∧
      (ServeHTTP a net clock req).cache = a.cache := by
  unfold ServeHTTP
  simp [hhost]

/-- C17, at a request without a host, on a cache that holds an entry. -/
theorem ServeHTTP_no_host_witness :
    (ServeHTTP sampleFilter deadNetwork ⟨0, 0⟩ { sampleRequest with Host := [] }).action =
        .next { sampleRequest with Host := [] } ∧
      (ServeHTTP sampleFilter deadNetwork ⟨0, 0⟩ { sampleRequest with Host := [] }).lookups =
        [] ∧
      (ServeHTTP sampleFilter deadNetwork ⟨0, 0⟩ { sampleRequest with Host := [] }).cache =
        sampleFilter.cache :=
  ServeHTTP_no_host sampleFilter deadNetwork ⟨0, 0⟩ { sampleRequest with Host := [] } rfl

/-! ## The request handler: an unexpected status -/

/-- C18: a request with a host and no fresh cache entry whose lookup succeeds with a status
other than 200, 201 and 404 is rejected with HTTP 500, so it is not forwarded, and nothing
is cached: afterwards the cache has no entry for the host. -/
theorem ServeHTTP_unexpected_status (a : DomainLookupFilter) (net : Network) (clock : Clock)
    (req : Request) (hhost : req.Host ≠ [])
    (hstale : freshEntry a.cache req.Host clock.atCheck = false)
    (hok : (lookupDomain a.config net req.Host).err = false)
    (h200 : (lookupDomain a.config net req.Host).statusCode ≠ 200)
    (h201 : (lookupDomain a.config net req.Host).statusCode ≠ 201)
    (h404 : (lookupDomain a.config net req.Host).statusCode ≠ 404) :
    (ServeHTTP a net clock req).action = .error "Unexpected error occurred".data 500 ∧
      (ServeHTTP a net clock req).lookups = [req.Host] ∧
      (ServeHTTP a net clock req).cache = removeCacheEntry a.cache req.Host ∧
      getCacheEntry (ServeHTTP a net clock req).cache req.Host = none := by
  rw [ServeHTTP_no_fresh a net clock req hhost hstale]
  unfold serveLookup
  simp [hok, h200, h201, h404, getCacheEntry_remove]

/-- C18, at the sample request with a stale entry and a lookup service answering 503. -/
theorem ServeHTTP_unexpected_status_witness :
    (ServeHTTP sampleFilter (constNetwork 503 "max-age=120".data "uuid123|".data)
        ⟨100, 100⟩ sampleRequest).action = .error "Unexpected error occurred".data 500 ∧
      getCacheEntry
          (ServeHTTP sampleFilter (constNetwork 503 "max-age=120".data "uuid123|".data)
            ⟨100, 100⟩ sampleRequest).cache sampleHost = none :=
  have h := ServeHTTP_unexpected_status sampleFilter
    (constNetwork 503 "max-age=120".data "uuid123|".data) ⟨100, 100⟩ sampleRequest
    (by decide) (by decide) (by decide) (by decide) (by decide) (by decide)
  ⟨h.1, h.2.2.2⟩

/-! ## The request handler: the staleness boundary -/

/-- C19: for a request with a host whose cache entry has `ExpiresAt ≤ now`, the instant
`now = ExpiresAt` included, the entry is not used, whatever its `Value` and `IsRedirect`:
the request is handled exactly as on the cache with that entry removed, that is as a cache
miss, by the lookup branch run on the cache without the entry, with exactly one lookup call;
conversely an entry with `now < ExpiresAt` decides the answer, without a lookup call and
without a change of the cache. -/
theorem ServeHTTP_staleness (a : DomainLookupFilter) (net : Network) (clock : Clock)
    (req : Request) (entry : CacheEntry) (hhost : req.Host ≠ [])
    (hentry : getCacheEntry a.cache req.Host = some entry) :
    (entry.ExpiresAt ≤ clock.atCheck →
        ServeHTTP a net clock req =
            ServeHTTP { a with cache := removeCacheEntry a.cache req.Host } net clock req ∧
          ServeHTTP a net clock req =
            serveLookup a.config (removeCacheEntry a.cache req.Host) net clock.atStore req ∧
          (ServeHTTP a net clock req).lookups = [req.Host]) ∧
      (clock.atCheck < entry.ExpiresAt →
        (ServeHTTP a net clock req).lookups = [] ∧
          (ServeHTTP a net clock req).cache = a.cache ∧
          (ServeHTTP a net clock req).action =
            if entry.Value = "NOT FOUND".data then .error "Unauthorized (404)".data 404
            else if entry.IsRedirect then .redirect entry.Value 302
            else if isIPAllowed (getClientIP req) (parseDomainInfo entry.Value).2 then
              .next (req.setHeader a.config.DomainIDHeader (parseDomainInfo entry.Value).1)
            else .error "Unauthorized".data 401) := by
  constructor
  · intro hexpired
    have hstale : freshEntry a.cache req.Host clock.atCheck = false := by
      unfold freshEntry
      rw [hentry]
      simpa using hexpired
    have hmiss : freshEntry
        ({ a with cache := removeCacheEntry a.cache req.Host } : DomainLookupFilter).cache
        req.Host clock.atCheck = false := by
      unfold freshEntry
      simp [getCacheEntry_remove]
    have hrun := ServeHTTP_no_fresh a net clock req hhost hstale
    have hrun2 := ServeHTTP_no_fresh { a with cache := removeCacheEntry a.cache req.Host }
      net clock req hhost hmiss
    have hagain : removeCacheEntry (removeCacheEntry a.cache req.Host) req.Host =
        removeCacheEntry a.cache req.Host :=
      removeCacheEntry_absent _ _ (getCacheEntry_remove _ _)
    refine ⟨?_, hrun, ?_⟩
    · rw [hrun, hrun2]
      simp only [hagain]
    · rw [hrun]
      exact serveLookup_lookups _ _ _ _ _
  · intro hfresh
    rw [ServeHTTP_fresh a net clock req entry hhost hentry hfresh]
    exact ⟨rfl, rfl, rfl⟩

/-- C19, at the sample request, whose entry expires at instant 100: at instant 100 exactly
the lookup is called once and the request fails open on the unreachable service; at instant
99 the entry answers and no lookup is made. -/
theorem ServeHTTP_staleness_witness :
    (ServeHTTP sampleFilter deadNetwork ⟨100, 100⟩ sampleRequest).lookups = [sampleHost] ∧
      (ServeHTTP sampleFilter deadNetwork ⟨99, 99⟩ sampleRequest).lookups = [] :=
  ⟨((ServeHTTP_staleness sampleFilter deadNetwork ⟨100, 100⟩ sampleRequest
      { Value := "uuid123|10.0.0.1".data, ExpiresAt := 100, IsRedirect := false }
      (by decide) (by decide)).1 (by decide)).2.2,
    ((ServeHTTP_staleness sampleFilter deadNetwork ⟨99, 99⟩ sampleRequest
      { Value := "uuid123|10.0.0.1".data, ExpiresAt := 100, IsRedirect := false }
      (by decide) (by decide)).2 (by decide)).1⟩

/-! ## The client IP resolver -/

/-- With a forwarding header, `getClientIP` is the trimmed first piece of its value. -/
theorem getClientIP_forwarded (req : Request)
    (hxff : Header.Get req.Header "X-Forwarded-For".data ≠ []) :
    getClientIP req =
      TrimSpace ((Header.Get req.Header "X-Forwarded-For".data).takeWhile (· != ',')) := by
  unfold getClientIP
  simp only [hxff, ne_eq, not_false_eq_true, if_true]
  rw [Split_unfold]

/-- C13: for a request whose `X-Forwarded-For` value is not empty, `getClientIP` returns the
text before the first `,` of that value, the whole value when it has no `,`, trimmed of
surrounding white space, and the result does not depend on `RemoteAddr`. -/
theorem getClientIP_forwarded_for (req : Request)
    (hxff : Header.Get req.Header "X-Forwarded-For".data ≠ []) :
    getClientIP req =
        TrimSpace ((Header.Get req.Header "X-Forwarded-For".data).takeWhile (· != ',')) ∧
      (',' ∉ Header.Get req.Header "X-Forwarded-For".data →
        getClientIP req = TrimSpace (Header.Get req.Header "X-Forwarded-For".data)) ∧
      ∀ addr : Str, getClientIP { req with RemoteAddr := addr } = getClientIP req := by
  refine ⟨getClientIP_forwarded req hxff, ?_, ?_⟩
  · intro hno
    rw [getClientIP_forwarded req hxff]
    congr 1
    rw [List.takeWhile_eq_self_iff]
    intro x hx
    have : x ≠ ',' := fun hxe => hno (hxe ▸ hx)
    simpa using this
  · intro addr
    rw [getClientIP_forwarded req hxff, getClientIP_forwarded { req with RemoteAddr := addr } hxff]

/-- C13, at the forwarding header of the tests, with the connection address of the tests and
with no connection address. -/
theorem getClientIP_forwarded_for_witness :
    getClientIP
        { Host := sampleHost
          Header := Header.Set (fun _ => []) "X-Forwarded-For".data
            "192.168.1.1, 10.0.0.1, 172.16.0.1".data
          RemoteAddr := "10.0.0.1:12345".data } = "192.168.1.1".data ∧
      getClientIP
        { Host := sampleHost
          Header := Header.Set (fun _ => []) "X-Forwarded-For".data
            "192.168.1.1, 10.0.0.1, 172.16.0.1".data
          RemoteAddr := [] } = "192.168.1.1".data :=
  have h := getClientIP_forwarded_for
    { Host := sampleHost
      Header := Header.Set (fun _ => []) "X-Forwarded-For".data
        "192.168.1.1, 10.0.0.1, 172.16.0.1".data
      RemoteAddr := "10.0.0.1:12345".data } (by decide)
  ⟨h.1.trans (by decide), (h.2.2 []).trans (h.1.trans (by decide))⟩

/-- The index `LastIndex` returns is `-1` or a position. -/
theorem LastIndex_ge (s : Str) (c : Char) : -1 ≤ LastIndex s c := by
  induction s with
  | nil => simp [LastIndex]
  | cons x xs ih =>
    rw [LastIndex]
    split_ifs <;> omega

/-- The index is `-1` exactly when the character does not occur. -/
theorem LastIndex_eq_neg_one_iff (s : Str) (c : Char) : LastIndex s c = -1 ↔ c ∉ s := by
  induction s with
  | nil => simp [LastIndex]
  | cons x xs ih =>
    have hge := LastIndex_ge xs c
    rw [LastIndex]
    split_ifs with h1 h2
    · have hmem : c ∈ xs := by
        by_contra hno
        exact h1 (ih.2 hno)
      constructor
      · intro h
        omega
      · intro h
        exact absurd (List.mem_cons_of_mem _ hmem) h
    · subst h2
      simp
    · have hno : c ∉ xs := ih.1 (not_not.1 h1)
      simp [hno, Ne.symm h2]

/-- The index of the last occurrence is the length of the text before it. -/
theorem LastIndex_append (pre post : Str) (c : Char) (hpost : c ∉ post) :
    LastIndex (pre ++ c :: post) c = pre.length := by
  induction pre with
  | nil =>
    have h := (LastIndex_eq_neg_one_iff post c).2 hpost
    simp [LastIndex, h]
  | cons x xs ih =>
    rw [List.cons_append, LastIndex]
    rw [ih]
    have : (xs.length : Int) ≠ -1 := by omega
    simp [this]

/-- A string that contains a character splits at its last occurrence. -/
theorem exists_last_occurrence (s : Str) (c : Char) (h : c ∈ s) :
    ∃ pre post, s = pre ++ c :: post ∧ c ∉ post := by
  induction s with
  | nil => simp at h
  | cons x xs ih =>
    by_cases hxs : c ∈ xs
    · obtain ⟨pre, post, hs, hpost⟩ := ih hxs
      exact ⟨x :: pre, post, by rw [hs, List.cons_append], hpost⟩
    · rcases List.mem_cons.1 h with hx | hx
      · exact ⟨[], xs, by rw [hx, List.nil_append], hxs⟩
      · exact absurd hx hxs

/-- Without a forwarding header, `getClientIP` cuts `RemoteAddr` at its last colon. -/
theorem getClientIP_cut (req : Request) (pre post : Str)
    (hxff : Header.Get req.Header "X-Forwarded-For".data = [])
    (haddr : req.RemoteAddr = pre ++ ':' :: post) (hpost : ':' ∉ post) :
    getClientIP req = pre := by
  unfold getClientIP
  simp only [hxff, ne_eq, not_true_eq_false, if_false]
  rw [haddr, LastIndex_append pre post ':' hpost]
  have : (pre.length : Int) ≠ -1 := by omega
  simp [this]

/-- C14: for a request with no, or an empty, `X-Forwarded-For` header, `getClientIP` returns
`RemoteAddr` with everything from its last `:` onwards removed when `RemoteAddr` contains a
`:`, and `RemoteAddr` unchanged when it contains none; it is a total function. -/
theorem getClientIP_remote_addr (req : Request)
    (hxff : Header.Get req.Header "X-Forwarded-For".data = []) :
    (':' ∈ req.RemoteAddr →
        ∃ pre post, req.RemoteAddr = pre ++ ':' :: post ∧ ':' ∉ post ∧
          getClientIP req = pre) ∧
      (∀ pre post, req.RemoteAddr = pre ++ ':' :: post → ':' ∉ post →
        getClientIP req = pre) ∧
      (':' ∉ req.RemoteAddr → getClientIP req = req.RemoteAddr) := by
  refine ⟨?_, ?_, ?_⟩
  · intro hmem
    obtain ⟨pre, post, haddr, hpost⟩ := exists_last_occurrence req.RemoteAddr ':' hmem
    exact ⟨pre, post, haddr, hpost, getClientIP_cut req pre post hxff haddr hpost⟩
  · intro pre post haddr hpost
    exact getClientIP_cut req pre post hxff haddr hpost
  · intro hno
    unfold getClientIP
    simp only [hxff, ne_eq, not_true_eq_false, if_false]
    rw [(LastIndex_eq_neg_one_iff req.RemoteAddr ':').2 hno]
    simp

/-- C14, at the connection addresses of the tests, with a port and without one. -/
theorem getClientIP_remote_addr_witness :
    getClientIP { Host := sampleHost, Header := fun _ => []
                  RemoteAddr := "192.168.1.1:12345".data } = "192.168.1.1".data ∧
      getClientIP { Host := sampleHost, Header := fun _ => []
                    RemoteAddr := "192.168.1.1".data } = "192.168.1.1".data :=
  ⟨(getClientIP_remote_addr
      { Host := sampleHost, Header := fun _ => [], RemoteAddr := "192.168.1.1:12345".data }
      (by decide)).2.1 "192.168.1.1".data "12345".data (by decide) (by decide),
    (getClientIP_remote_addr
      { Host := sampleHost, Header := fun _ => [], RemoteAddr := "192.168.1.1".data }
      (by decide)).2.2 (by decide)⟩

/-! ## The domain info codec and the evaluator together -/

/-- A split has one piece more than the string has separators. -/
theorem Split_length (s : Str) (sep : Char) :
    (Split s sep).length = 1 + s.count sep := by
  induction s with
  | nil => rfl
  | cons c cs ih =>
    by_cases hc : c = sep
    · subst hc
      rw [Split, if_pos rfl, List.length_cons, ih, List.count_cons_self]
      omega
    · rw [Split, if_neg hc, List.count_cons_of_ne (Ne.symm hc)]
      cases hs : Split cs sep with
      | nil => exact absurd hs (Split_ne_nil _ _)
      | cons p ps =>
        rw [hs] at ih
        simpa using ih

/-- The characters of a piece are characters of the string. -/
theorem Split_subset (s : Str) (sep : Char) : ∀ p ∈ Split s sep, ∀ c ∈ p, c ∈ s := by
  induction s with
  | nil => simp [Split]
  | cons x xs ih =>
    by_cases hx : x = sep
    · subst hx
      rw [Split, if_pos rfl]
      intro p hp c hc
      rcases List.mem_cons.1 hp with rfl | hp
      · simp at hc
      · exact List.mem_cons_of_mem _ (ih p hp c hc)
    · rw [Split, if_neg hx]
      cases hs : Split xs sep with
      | nil => exact absurd hs (Split_ne_nil _ _)
      | cons q qs =>
        rw [hs] at ih
        intro p hp c hc
        rcases List.mem_cons.1 hp with rfl | hp
        · rcases List.mem_cons.1 hc with rfl | hc
          · exact List.mem_cons_self _ _
          · exact List.mem_cons_of_mem _ (ih q (List.mem_cons_self _ _) c hc)
        · exact List.mem_cons_of_mem _ (ih p (List.mem_cons_of_mem _ hp) c hc)

/-- Trimming a string of white space leaves the empty string. -/
theorem TrimSpace_blank (s : Str) (h : ∀ c ∈ s, isSpace c = true) : TrimSpace s = [] := by
  unfold TrimSpace
  have : s.dropWhile isSpace = [] := by
    rw [List.dropWhile_eq_nil_iff]
    exact h
  simp [this]

/-- C20: for a raw string that contains a `|` and whose second `|`-separated part is not
empty, the allow-list of `parseDomainInfo` is not empty and has one entry more than that
part has commas, blank items being kept as empty strings; so `isIPAllowed` on it is not the
unrestricted case: it allows a client address only when an entry equals it; and when the
second part consists of white space and commas only, every entry is the empty string and
every non-empty client address is denied. -/
theorem parseDomainInfo_restricting (raw : Str) (h : '|' ∈ raw)
    (hsecond : secondPart raw ≠ []) :
    (parseDomainInfo raw).2 ≠ [] ∧
      (parseDomainInfo raw).2.length = 1 + (secondPart raw).count ',' ∧
      (∀ clientIP, isIPAllowed clientIP (parseDomainInfo raw).2 = true ↔
        ∃ allowedIP ∈ (parseDomainInfo raw).2, TrimSpace allowedIP = clientIP) ∧
      ((∀ c ∈ secondPart raw, c = ',' ∨ isSpace c = true) →
        (∀ allowedIP ∈ (parseDomainInfo raw).2, allowedIP = []) ∧
          ∀ clientIP, clientIP ≠ [] →
            isIPAllowed clientIP (parseDomainInfo raw).2 = false) := by
  have hlist : (parseDomainInfo raw).2 = (Split (secondPart raw) ',').map TrimSpace := by
    rw [(parseDomainInfo_shape raw h)]
    simp [hsecond]
  have hne : (parseDomainInfo raw).2 ≠ [] := by
    rw [hlist]
    simpa using Split_ne_nil (secondPart raw) ','
  have hiff : ∀ clientIP, isIPAllowed clientIP (parseDomainInfo raw).2 = true ↔
      ∃ allowedIP ∈ (parseDomainInfo raw).2, TrimSpace allowedIP = clientIP := by
    intro clientIP
    unfold isIPAllowed
    cases hl : (parseDomainInfo raw).2 with
    | nil => exact absurd hl hne
    | cons x xs => simp [List.any_eq_true]
  refine ⟨hne, ?_, hiff, ?_⟩
  · rw [hlist, List.length_map, Split_length]
  · intro hblank
    have hall : ∀ allowedIP ∈ (parseDomainInfo raw).2, allowedIP = [] := by
      intro allowedIP hmem
      rw [hlist, List.mem_map] at hmem
      obtain ⟨p, hp, rfl⟩ := hmem
      apply TrimSpace_blank
      intro c hc
      rcases hblank c (Split_subset _ _ p hp c hc) with hcomma | hspace
      · exact absurd (hcomma ▸ hc) (Split_not_mem _ _ p hp)
      · exact hspace
    refine ⟨hall, ?_⟩
    intro clientIP hclient
    cases hb : isIPAllowed clientIP (parseDomainInfo raw).2 with
    | false => rfl
    | true =>
      obtain ⟨allowedIP, hmem, heq⟩ := (hiff clientIP).1 hb
      rw [hall allowedIP hmem] at heq
      exact absurd heq.symm hclient

/-- C20, at a record whose second part is ` , ,`: three empty entries, and the client
`10.0.0.1` is denied. -/
theorem parseDomainInfo_restricting_witness :
    (parseDomainInfo "uuid123| , ,".data).2.length =
        1 + (secondPart "uuid123| , ,".data).count ',' ∧
      (parseDomainInfo "uuid123| , ,".data).2 = [[], [], []] ∧
      isIPAllowed "10.0.0.1".data (parseDomainInfo "uuid123| , ,".data).2 = false :=
  have h := parseDomainInfo_restricting "uuid123| , ,".data (by decide) (by decide)
  ⟨h.2.1, by decide, (h.2.2.2 (by decide)).2 "10.0.0.1".data (by decide)⟩

/-! ## The max-age parser -/

/-- The digit loop succeeds exactly on a run of digits, with the value of the run. -/
theorem parseDigits_eq_some (ds : Str) (acc v : Nat) :
    parseDigits ds acc = some v ↔
      (∀ c ∈ ds, 48 ≤ c.toNat ∧ c.toNat ≤ 57) ∧
        v = ds.foldl (fun acc c => acc * 10 + (c.toNat - 48)) acc := by
  induction ds generalizing acc with
  | nil => simp [parseDigits, eq_comm]
  | cons c cs ih =>
    rw [parseDigits]
    by_cases hc : 48 ≤ c.toNat ∧ c.toNat ≤ 57
    · simp only [digitVal, hc, and_self, if_true, ih, List.foldl_cons, List.mem_cons,
        forall_eq_or_imp, true_and]
    · simp only [digitVal, hc, if_false, List.mem_cons, forall_eq_or_imp, false_and]
      simp

/-- The body of `Atoi` on a non-empty string. -/
theorem Atoi_cons (c : Char) (rest : Str) :
    Atoi (c :: rest) =
      if (if c = '-' ∨ c = '+' then rest else c :: rest) = [] then none
      else signedValue (if c = '-' ∨ c = '+' then rest else c :: rest) (decide (c = '-')) :=
  rfl

theorem Atoi_minus (rest : Str) :
    Atoi ('-' :: rest) = if rest = [] then none else signedValue rest true :=
  rfl

theorem Atoi_plus (rest : Str) :
    Atoi ('+' :: rest) = if rest = [] then none else signedValue rest false :=
  rfl

theorem Atoi_unsigned (c : Char) (rest : Str) (hminus : c ≠ '-') (hplus : c ≠ '+') :
    Atoi (c :: rest) = signedValue (c :: rest) false := by
  rw [Atoi_cons]
  simp [hminus, hplus]

theorem signedValue_eq_some (ds : Str) (neg : Bool) (n : Int) :
    signedValue ds neg = some n ↔
      (∀ c ∈ ds, 48 ≤ c.toNat ∧ c.toNat ≤ 57) ∧
        n = (if neg then -(digitsValue ds : Int) else (digitsValue ds : Int)) ∧
        -(2 : Int) ^ 63 ≤ n ∧ n < (2 : Int) ^ 63 := by
  unfold signedValue
  cases hp : parseDigits ds 0 with
  | none =>
    constructor
    · intro h
      exact Option.noConfusion h
    · rintro ⟨hdig, -⟩
      have := (parseDigits_eq_some ds 0 _).2 ⟨hdig, rfl⟩
      rw [hp] at this
      exact Option.noConfusion this
  | some v =>
    obtain ⟨hdig, hv⟩ := (parseDigits_eq_some ds 0 v).1 hp
    have hval : digitsValue ds = v := hv.symm
    rw [hval]
    dsimp only
    generalize (if neg = true then -(v : Int) else (v : Int)) = x
    by_cases hr : -(2 : Int) ^ 63 ≤ x ∧ x < (2 : Int) ^ 63
    · rw [if_pos hr]
      constructor
      · intro h
        have hn : x = n := Option.some.inj h
        exact ⟨hdig, hn.symm, hn ▸ hr.1, hn ▸ hr.2⟩
      · rintro ⟨-, hn, -, -⟩
        rw [hn]
    · rw [if_neg hr]
      constructor
      · intro h
        exact Option.noConfusion h
      · rintro ⟨-, hn, hlo, hhi⟩
        exact absurd ⟨hn ▸ hlo, hn ▸ hhi⟩ hr

/-- The function `Atoi` succeeds with `n` exactly on a valid decimal integer of value `n`. -/
theorem Atoi_eq_some_iff (t : Str) (n : Int) : Atoi t = some n ↔ ValidInt t n := by
  constructor
  · intro h
    cases t with
    | nil => exact Option.noConfusion (show (none : Option Int) = some n from h)
    | cons c rest =>
      by_cases hminus : c = '-'
      · subst hminus
        rw [Atoi_minus] at h
        by_cases hds : rest = []
        · rw [if_pos hds] at h
          exact Option.noConfusion h
        · rw [if_neg hds] at h
          obtain ⟨hdig, hn, hlo, hhi⟩ := (signedValue_eq_some _ _ n).1 h
          exact ⟨['-'], rest, rfl, Or.inr (Or.inr rfl), hds, hdig, by simpa using hn, hlo, hhi⟩
      · by_cases hplus : c = '+'
        · subst hplus
          rw [Atoi_plus] at h
          by_cases hds : rest = []
          · rw [if_pos hds] at h
            exact Option.noConfusion h
          · rw [if_neg hds] at h
            obtain ⟨hdig, hn, hlo, hhi⟩ := (signedValue_eq_some _ _ n).1 h
            exact ⟨['+'], rest, rfl, Or.inr (Or.inl rfl), hds, hdig, by simpa using hn,
              hlo, hhi⟩
        · rw [Atoi_unsigned c rest hminus hplus] at h
          obtain ⟨hdig, hn, hlo, hhi⟩ := (signedValue_eq_some _ _ n).1 h
          exact ⟨[], c :: rest, rfl, Or.inl rfl, by simp, hdig, by simpa using hn, hlo, hhi⟩
  · rintro ⟨sign, digits, rfl, hsign, hne, hdig, hn, hlo, hhi⟩
    rcases hsign with rfl | rfl | rfl
    · cases digits with
      | nil => exact absurd rfl hne
      | cons c rest =>
        have hc := hdig c (List.mem_cons_self _ _)
        have hminus : c ≠ '-' := by
          rintro rfl
          simp at hc
        have hplus : c ≠ '+' := by
          rintro rfl
          simp at hc
        rw [List.nil_append, Atoi_unsigned c rest hminus hplus]
        exact (signedValue_eq_some _ _ n).2 ⟨hdig, by simpa using hn, hlo, hhi⟩
    · show Atoi ('+' :: digits) = some n
      rw [Atoi_plus, if_neg hne]
      exact (signedValue_eq_some _ _ n).2 ⟨hdig, by simpa using hn, hlo, hhi⟩
    · show Atoi ('-' :: digits) = some n
      rw [Atoi_minus, if_neg hne]
      exact (signedValue_eq_some _ _ n).2 ⟨hdig, by simpa using hn, hlo, hhi⟩

/-- A directive is `max-age=` followed by a valid decimal integer exactly when the scan of
`parseMaxAge` accepts it. -/
theorem IsMaxAge_iff (d : Str) (n : Int) :
    IsMaxAge d n ↔ HasPrefix d "max-age=".data = true ∧ Atoi (d.drop 8) = some n := by
  unfold IsMaxAge HasPrefix
  constructor
  · rintro ⟨t, rfl, ht⟩
    refine ⟨?_, ?_⟩
    · rw [List.isPrefixOf_iff_prefix]
      exact List.prefix_append _ _
    · have hdrop : ("max-age=".data ++ t).drop 8 = t := rfl
      rw [hdrop]
      exact (Atoi_eq_some_iff t n).2 ht
  · rintro ⟨hpre, hatoi⟩
    rw [List.isPrefixOf_iff_prefix] at hpre
    obtain ⟨t, rfl⟩ := hpre
    have hdrop : ("max-age=".data ++ t).drop 8 = t := rfl
    rw [hdrop] at hatoi
    exact ⟨t, rfl, (Atoi_eq_some_iff t n).1 hatoi⟩

/-- The scan skips the directives that are not `max-age=` with a valid integer and returns
the value of the first that is. -/
theorem scan_first (config : Config) (pre post : List Str) (d : Str) (n : Int)
    (hd : IsMaxAge d n) (hpre : ∀ e ∈ pre, ∀ m, ¬ IsMaxAge e m) :
    ∀ l : List Str, l.map TrimSpace = pre ++ d :: post → parseMaxAge.scan config l = n := by
  induction pre with
  | nil =>
    intro l hl
    cases l with
    | nil => simp at hl
    | cons x xs =>
      simp only [List.map_cons, List.nil_append, List.cons.injEq] at hl
      obtain ⟨hpref, hatoi⟩ := (IsMaxAge_iff d n).1 hd
      rw [parseMaxAge.scan]
      simp only [hl.1, hpref, if_true, hatoi]
  | cons p ps ih =>
    intro l hl
    cases l with
    | nil => simp at hl
    | cons x xs =>
      simp only [List.map_cons, List.cons_append, List.cons.injEq] at hl
      have hrest := ih (fun e he m => hpre e (List.mem_cons_of_mem _ he) m) xs hl.2
      have hp : ∀ m, ¬ IsMaxAge p m := hpre p (List.mem_cons_self _ _)
      rw [parseMaxAge.scan]
      simp only [hl.1]
      by_cases hpref : HasPrefix p "max-age=".data = true
      · cases hatoi : Atoi (p.drop 8) with
        | none => simp only [hpref, if_true, hrest]
        | some m => exact absurd ((IsMaxAge_iff p m).2 ⟨hpref, hatoi⟩) (hp m)
      · simp only [hpref, hrest]
        simp

/-- Without a directive that is `max-age=` with a valid integer the scan returns the default
TTL. -/
theorem scan_default (config : Config) (l : List Str)
    (h : ∀ e ∈ l.map TrimSpace, ∀ m, ¬ IsMaxAge e m) :
    parseMaxAge.scan config l = config.DefaultTTL := by
  induction l with
  | nil => rw [parseMaxAge.scan]
  | cons x xs ih =>
    have hrest := ih fun e he m =>
      h e (by simp only [List.map_cons]; exact List.mem_cons_of_mem _ he) m
    have hx : ∀ m, ¬ IsMaxAge (TrimSpace x) m :=
      h (TrimSpace x) (by simp only [List.map_cons]; exact List.mem_cons_self _ _)
    rw [parseMaxAge.scan]
    by_cases hpref : HasPrefix (TrimSpace x) "max-age=".data = true
    · cases hatoi : Atoi ((TrimSpace x).drop 8) with
      | none => simp only [hpref, if_true, hrest]
      | some m => exact absurd ((IsMaxAge_iff _ m).2 ⟨hpref, hatoi⟩) (hx m)
    · simp only [hpref, hrest]
      simp

/-- A list of directives none of which the scan accepts holds no `max-age=` with a valid
integer. -/
theorem no_IsMaxAge_of_all (l : List Str)
    (h : l.all (fun e => !(HasPrefix e "max-age=".data && (Atoi (e.drop 8)).isSome)) = true) :
    ∀ e ∈ l, ∀ m, ¬ IsMaxAge e m := by
  intro e he m hm
  obtain ⟨hpref, hatoi⟩ := (IsMaxAge_iff e m).1 hm
  have := List.all_eq_true.1 h e he
  simp [hpref, hatoi] at this

/-- C11: splitting a Cache-Control string on `,` and trimming each directive, if some
directive is `max-age=` followed by a valid decimal integer, then `parseMaxAge` returns the
integer of the first such directive in order, whatever the configured default TTL. -/
theorem parseMaxAge_first (config : Config) (cacheControl : Str) (pre post : List Str)
    (d : Str) (n : Int)
    (hsplit : (Split cacheControl ',').map TrimSpace = pre ++ d :: post)
    (hd : IsMaxAge d n) (hpre : ∀ e ∈ pre, ∀ m, ¬ IsMaxAge e m) :
    parseMaxAge config cacheControl = n := by
  unfold parseMaxAge
  by_cases hempty : cacheControl = []
  · exfalso
    subst hempty
    obtain ⟨t, hdt, -⟩ := hd
    cases pre with
    | nil =>
      have hh : TrimSpace [] = d ∧ post = [] := by simpa [Split] using hsplit
      rw [← hh.1] at hdt
      have hnil : ([] : Str) = 'm' :: ("ax-age=".data ++ t) := hdt
      exact List.noConfusion hnil
    | cons p ps =>
      have hlen := congrArg List.length hsplit
      simp [Split] at hlen
  · rw [if_neg hempty]
    exact scan_first config pre post d n hd hpre _ hsplit

/-- C11, at the headers of the tests: `max-age=300` gives 300, and
`public, max-age=600, must-revalidate` gives 600, under a default TTL of 60. -/
theorem parseMaxAge_first_witness :
    parseMaxAge CreateConfig "max-age=300".data = 300 ∧
      parseMaxAge CreateConfig "public, max-age=600, must-revalidate".data = 600 :=
  ⟨parseMaxAge_first CreateConfig "max-age=300".data [] [] "max-age=300".data 300
      (by decide) ((IsMaxAge_iff _ _).2 ⟨by decide, by decide⟩)
      (no_IsMaxAge_of_all [] (by decide)),
    parseMaxAge_first CreateConfig "public, max-age=600, must-revalidate".data
      ["public".data] ["must-revalidate".data] "max-age=600".data 600
      (by decide) ((IsMaxAge_iff _ _).2 ⟨by decide, by decide⟩)
      (no_IsMaxAge_of_all ["public".data] (by decide))⟩

/-- C12: for a Cache-Control string that is empty, or none of whose comma-separated
directives, trimmed, is `max-age=` followed by a valid integer, `parseMaxAge` returns
`config.DefaultTTL`; it is a total function. -/
theorem parseMaxAge_default (config : Config) (cacheControl : Str)
    (h : cacheControl = [] ∨
      ∀ e ∈ (Split cacheControl ',').map TrimSpace, ∀ m, ¬ IsMaxAge e m) :
    parseMaxAge config cacheControl = config.DefaultTTL := by
  unfold parseMaxAge
  by_cases hempty : cacheControl = []
  · rw [if_pos hempty]
  · rw [if_neg hempty]
    rcases h with h | h
    · exact absurd h hempty
    · exact scan_default config _ h

/-- C12, at the headers of the tests and of the claim, under a default TTL of 60. -/
theorem parseMaxAge_default_witness :
    parseMaxAge CreateConfig [] = 60 ∧
      parseMaxAge CreateConfig "public, must-revalidate".data = 60 ∧
      parseMaxAge CreateConfig "max-age=invalid".data = 60 ∧
      parseMaxAge CreateConfig "max-age=".data = 60 :=
  ⟨parseMaxAge_default CreateConfig [] (Or.inl rfl),
    parseMaxAge_default CreateConfig "public, must-revalidate".data
      (Or.inr (no_IsMaxAge_of_all _ (by decide))),
    parseMaxAge_default CreateConfig "max-age=invalid".data
      (Or.inr (no_IsMaxAge_of_all _ (by decide))),
    parseMaxAge_default CreateConfig "max-age=".data
      (Or.inr (no_IsMaxAge_of_all _ (by decide)))⟩

end DomainConverter
